import Mathlib

set_option linter.unusedVariables false

/-!
Verification of the distributed spy-detection game (`tp_jeu/capteur.py`,
`tp_jeu/server.py`).  Temperatures and confidence values are embedded as
rationals; every call to `random.choice(lst)` is embedded as an explicit
draw `d : ℕ` selecting `lst[d % lst.length]`; network effects (the Ollama
analysis call, the Open-Meteo fetch) are embedded as explicit oracle
arguments describing the outcome the code observes.
-/

/-- Result record produced by `AnalyseurIA` (fields `suspect` and
`confiance`; the free-text evidence fields carry no logic). -/
structure Analyse where
  suspect : String
  confiance : ℚ
  deriving DecidableEq, Repr

/-- Input shape of `AnalyseurIA._normaliser_confiance`: a number, or a
string whose `float(...)` parse (after stripping `%` and mapping `,` to
`.`) either yields a rational or raises (`none`). -/
inductive EntreeConfiance where
  | nombre (q : ℚ)
  | chaine (parse : Option ℚ)
  deriving DecidableEq, Repr

/-- Embedding of `AnalyseurIA._normaliser_confiance`: strings that fail to
parse map to 0.5; a parsed string value greater than 1 is divided by 100;
the result is clamped to the interval [0, 1]. -/
def normaliserConfiance (c : EntreeConfiance) : ℚ :=
  match c with
  | .nombre q => max 0 (min 1 q)
  | .chaine none => 1/2
  | .chaine (some q) =>
      let q := if 1 < q then q / 100 else q
      max 0 (min 1 q)

/-- Suspect check performed by `AnalyseurIA._valider_analyse`: the suspect
string must start with `"rpi"`. -/
def validerSuspect (s : String) : Bool := s.startsWith "rpi"

/-- Outcome of the Ollama exchange as observed by `analyser_espion`:
`aucune` covers no/empty response, a network error or a timeout;
`invalide` covers a response from which no JSON object with the required
fields can be extracted; `valide` carries the extracted suspect and
confidence. -/
inductive ReponseLLM where
  | aucune
  | invalide
  | valide (suspect : String) (confiance : EntreeConfiance)
  deriving DecidableEq, Repr

/-- Embedding of `random.choice(l)` with an explicit draw: the element at
index `d % l.length`. -/
def choixAleatoire (l : List String) (d : ℕ) : String :=
  l.getD (d % l.length) ""

/-- Embedding of `AnalyseurIA._vote_espion`: with no collected peers, the
fixed record (suspect `rpi1`, confidence 0.6); otherwise a uniformly drawn
peer with fixed confidence 0.65. -/
def voteEspion (monId : String) (autres : List String) (d : ℕ) : Analyse :=
  if autres = [] then ⟨"rpi1", 3/5⟩
  else ⟨choixAleatoire autres d, 13/20⟩

/-- Embedding of `AnalyseurIA._vote_aleatoire`: with no collected peers,
the fixed record (suspect `rpi1`, confidence 0.25); otherwise a uniformly
drawn peer with fixed confidence 0.25. -/
def voteAleatoire (monId : String) (autres : List String) (d : ℕ) : Analyse :=
  if autres = [] then ⟨"rpi1", 1/4⟩
  else ⟨choixAleatoire autres d, 1/4⟩

/-- Embedding of `AnalyseurIA.analyser_espion`: the spy votes via
`_vote_espion`; an honest agent delegates to the LLM and falls back to
`_vote_aleatoire` whenever Ollama is unavailable, returns nothing, or
returns a payload that fails validation; a validated payload is returned
with its confidence normalised. -/
def analyserEspion (monId : String) (mesTemperatures : List ℚ)
    (temperaturesAutres : List (String × List ℚ)) (jeSuisEspion : Bool)
    (ollamaDisponible : Bool) (reponse : ReponseLLM) (d : ℕ) : Analyse :=
  let autresIds := temperaturesAutres.map Prod.fst
  if jeSuisEspion then voteEspion monId autresIds d
  else if !ollamaDisponible then voteAleatoire monId autresIds d
  else
    match reponse with
    | .aucune => voteAleatoire monId autresIds d
    | .invalide => voteAleatoire monId autresIds d
    | .valide s c =>
        if validerSuspect s then ⟨s, normaliserConfiance c⟩
        else voteAleatoire monId autresIds d

/-- Condition under which an honest agent falls back in
`analyser_espion`: Ollama unavailable, no response, invalid payload, or a
suspect failing validation. -/
def echecAnalyse (ollamaDisponible : Bool) (reponse : ReponseLLM) : Bool :=
  !ollamaDisponible ||
    match reponse with
    | .aucune => true
    | .invalide => true
    | .valide s _ => !validerSuspect s

/-- Modelled from the spec: the deterministic statistical fallback rule of
section 4.3 (mean of all collected values, own plus peers flattened; per
peer the absolute difference between that peer mean and the global mean;
accuse the maximal deviation, ties broken by smallest participant id).
No counterpart exists in the source, whose fallback is `_vote_aleatoire`. -/
def regleStatistiqueSpec (mesTemperatures : List ℚ)
    (temperaturesAutres : List (String × List ℚ)) : Option String :=
  let toutes := mesTemperatures ++ (temperaturesAutres.map Prod.snd).flatten
  if toutes.length = 0 then none else
  let moyenneGlobale := toutes.sum / (toutes.length : ℚ)
  let deviation := fun (p : String × List ℚ) =>
    |p.2.sum / (p.2.length : ℚ) - moyenneGlobale|
  let meilleur := temperaturesAutres.foldl
    (fun acc p =>
      match acc with
      | none => some (p.1, deviation p)
      | some (k, dv) =>
          if dv < deviation p then some (p.1, deviation p)
          else if deviation p = dv ∧ p.1.data < k.data then some (p.1, deviation p)
          else some (k, dv))
    none
  meilleur.map Prod.fst

/-- Participant registry of `ServeurArbitre` (`capteurs_ids`). -/
def capteursIds : List String := ["rpi1", "rpi2", "rpi3", "rpi4"]

/-- Round-scoped state of `ServeurArbitre`: secret spy id, accepted votes
(in acceptance order, voter paired with accused), accepted-vote counter,
registered participants, and the in-progress flag. -/
structure Serveur where
  espionId : Option String
  votes : List (String × String)
  nbVotesRecus : ℕ
  capteursConnectes : List String
  partieEnCours : Bool
  deriving DecidableEq, Repr

/-- State of the arbiter with no round-scoped data: the `WaitingForAgents`
configuration established by `__init__` and by `reinitialiser_partie`. -/
def etatInitial : Serveur :=
  { espionId := none, votes := [], nbVotesRecus := 0,
    capteursConnectes := [], partieEnCours := false }

/-- Embedding of `ServeurArbitre.reinitialiser_partie`: clears the votes,
the vote counter, the spy assignment and the registered set, and drops the
in-progress flag. -/
def reinitialiserPartie (s : Serveur) : Serveur :=
  { s with votes := [], nbVotesRecus := 0, espionId := none,
           capteursConnectes := [], partieEnCours := false }

/-- Embedding of the state effect of `ServeurArbitre.demarrer_jeu`: marks
the round in progress and draws the spy uniformly from the registry. -/
def demarrerJeu (s : Serveur) (tirage : ℕ) : Serveur :=
  { s with partieEnCours := true,
           espionId := some (choixAleatoire capteursIds tirage) }

/-- Embedding of `ServeurArbitre.traiter_presence`: unknown ids and
duplicate announcements are ignored; otherwise the id is registered, and
when the registry is complete and no round is in progress the round
starts. -/
def traiterPresence (s : Serveur) (capteurId : String) (tirage : ℕ) : Serveur :=
  if capteurId ∉ capteursIds then s
  else if capteurId ∈ s.capteursConnectes then s
  else
    let s2 := { s with capteursConnectes := s.capteursConnectes ++ [capteurId] }
    if s2.capteursConnectes.length = capteursIds.length ∧ ¬s2.partieEnCours
    then demarrerJeu s2 tirage else s2

/-- One update step of the Python dict `comptage[suspect] = get(suspect, 0) + 1`
on an insertion-ordered association list. -/
def incrementeComptage : List (String × ℕ) → String → List (String × ℕ)
  | [], k => [(k, 1)]
  | (k2, n) :: t, k =>
      if k2 = k then (k2, n + 1) :: t else (k2, n) :: incrementeComptage t k

/-- Tally of `determiner_gagnant`: one count per accused id, keys in order
of first accusation (Python dict insertion order). -/
def comptage (votes : List (String × String)) : List (String × ℕ) :=
  votes.foldl (fun acc v => incrementeComptage acc v.2) []

/-- Running maximum of Python `max(..., key=...)`: the current best is
replaced only by a strictly greater count, so the first maximal entry in
iteration order wins. -/
def maxEntree : (String × ℕ) → List (String × ℕ) → (String × ℕ)
  | b, [] => b
  | b, p :: t => maxEntree (if b.2 < p.2 then p else b) t

/-- Embedding of `max(comptage, key=comptage.get)` in `determiner_gagnant`. -/
def suspectDesigne (c : List (String × ℕ)) : String :=
  match c with
  | [] => ""
  | p :: t => (maxEntree p t).1

/-- Round outcome announced by `determiner_gagnant`. -/
inductive Issue where
  | victoireCapteurs
  | victoireEspion
  deriving DecidableEq, Repr

/-- Embedding of the decision of `ServeurArbitre.determiner_gagnant`: the
sensors win exactly when the majority suspect is the spy. -/
def determinerGagnant (votes : List (String × String)) (espionId : String) : Issue :=
  if suspectDesigne (comptage votes) = espionId then .victoireCapteurs
  else .victoireEspion

/-- Embedding of `ServeurArbitre.traiter_vote` (payload given as its
parsed `suspect` field, `none` when the payload is unparseable or the
field is missing).  Returns the new state together with the reported
outcome when this vote completes the round: unknown voters, duplicate
voters and invalid suspects leave the state unchanged; an accepted vote is
appended, and once every registered participant has voted the winner is
computed and the state is reset. -/
def traiterVote (s : Serveur) (capteurId : String) (suspectId : Option String) :
    Serveur × Option Issue :=
  if capteurId ∉ capteursIds then (s, none)
  else if capteurId ∈ s.votes.map Prod.fst then (s, none)
  else
    match suspectId with
    | none => (s, none)
    | some suspect =>
        if suspect = "" ∨ suspect ∉ capteursIds then (s, none)
        else
          let s2 := { s with votes := s.votes ++ [(capteurId, suspect)],
                             nbVotesRecus := s.nbVotesRecus + 1 }
          if capteursIds.length ≤ s2.nbVotesRecus then
            (reinitialiserPartie s2,
             some (determinerGagnant s2.votes (s2.espionId.getD "")))
          else (s2, none)

/-- First association of a peer id in the collected-samples list
(`temperatures_recues` lookup). -/
def chercher (peer : String) : List (String × List ℚ) → Option (List ℚ)
  | [] => none
  | (k, ts) :: rest => if k = peer then some ts else chercher peer rest

/-- Append semantics of `self.temperatures_recues[capteur_source].append(t)`
on a `defaultdict(list)`: a missing key is created at the end, an existing
key has the sample appended to its sequence, unconditionally. -/
def appendRecue (recues : List (String × List ℚ)) (peer : String) (t : ℚ) :
    List (String × List ℚ) :=
  match recues with
  | [] => [(peer, [t])]
  | (k, ts) :: rest =>
      if k = peer then (k, ts ++ [t]) :: rest
      else (k, ts) :: appendRecue rest peer t

/-- Embedding of `CapteurTemperature.traiter_temperature_recue`: an
unparseable payload leaves the state unchanged; otherwise the temperature
is appended to the sequence of the sending peer. -/
def traiterTemperatureRecue (recues : List (String × List ℚ)) (peer : String)
    (payload : Option ℚ) : List (String × List ℚ) :=
  match payload with
  | none => recues
  | some t => appendRecue recues peer t

/-- Base offset of `GenerateurTemperatureEspion` (constructor argument
`offset=-10` used by `CapteurTemperature`). -/
def offsetEspion : ℚ := -10

/-- Scale factor of `GenerateurTemperatureEspion` (constructor argument
`scale=3.5` used by `CapteurTemperature`). -/
def scaleEspion : ℚ := 7/2

/-- Round-half-to-even on rationals: the integer nearest to `q`, with the
tie at one half resolved to the even neighbour (the rounding used by
Python `round`). -/
def arrondiDemiPair (q : ℚ) : ℤ :=
  if q - ⌊q⌋ < 1/2 then ⌊q⌋
  else if (1 : ℚ)/2 < q - ⌊q⌋ then ⌊q⌋ + 1
  else if ⌊q⌋ % 2 = 0 then ⌊q⌋ else ⌊q⌋ + 1

/-- Python `round(q, 1)`: round-half-to-even at one decimal place. -/
def pythonRound1 (q : ℚ) : ℚ := (arrondiDemiPair (q * 10) : ℚ) / 10

/-- Embedding of
`GenerateurTemperatureEspion.generer_temperature_aberrante` with the
Poisson draw made explicit: `offset + scale * draw`, rounded to one
decimal, clamped to [-50, 60]. -/
def genererTemperatureAberrante (tirage : ℕ) : ℚ :=
  let temperature := offsetEspion + scaleEspion * (tirage : ℚ)
  let temperature := pythonRound1 temperature
  max (-50) (min 60 temperature)

/-- Embedding of `CapteurTemperature.obtenir_temperature`: the spy draws
from the Poisson generator; an honest sensor returns the Open-Meteo
reading rounded to one decimal (`some t` stands for a 200 response with
temperature `t`), or the fixed default 10.0 when the request fails or the
status is not 200 (`none`). -/
def obtenirTemperature (role : String) (meteo : Option ℚ) (tirage : ℕ) : ℚ :=
  if role = "espion" then genererTemperatureAberrante tirage
  else
    match meteo with
    | some t => pythonRound1 t
    | none => 10

/-- Publication budget `MAX_PUBLICATIONS` of `CapteurTemperature`. -/
def maxPublications : ℕ := 5

/-- Samples recorded by the loop of
`CapteurTemperature.publier_temperatures`: one `obtenir_temperature` call
per iteration, `meteo i` and `tirages i` being the oracle outcomes seen at
iteration `i`. -/
def publierTemperatures (role : String) (meteo : ℕ → Option ℚ)
    (tirages : ℕ → ℕ) : List ℚ :=
  (List.range maxPublications).map fun i =>
    obtenirTemperature role (meteo i) (tirages i)

/-- Duration of the pause between the end of the publication loop and
`analyser_et_voter` in `CapteurTemperature.publier_temperatures`: a fixed
`time.sleep(3)`, whatever the collection state. -/
def tempsAttenteApresPublication (recues : List (String × List ℚ)) : ℚ := 3

/-- Modelled from the spec: the post-publication wait of section 4.2
(poll until every other participant has K collected samples, proceed
immediately when the condition holds, otherwise proceed when the bound
T_max = 30 s elapses).  No counterpart exists in the source, whose wait is
the fixed `time.sleep(3)`. -/
def attenteSpec (autresIds : List String) (recues : List (String × List ℚ)) : ℚ :=
  if autresIds.all fun a => maxPublications ≤ ((chercher a recues).getD []).length
  then 0 else 30

/-! ### Helper lemmas -/

lemma choixAleatoire_mem (l : List String) (d : ℕ) (h : l ≠ []) :
    choixAleatoire l d ∈ l := by
  unfold choixAleatoire
  have hlen : d % l.length < l.length := Nat.mod_lt _ (List.length_pos.mpr h)
  rw [List.getD_eq_getElem _ _ hlen]
  exact List.getElem_mem hlen

lemma maxEntree_ge (b : String × ℕ) (t : List (String × ℕ)) :
    b.2 ≤ (maxEntree b t).2 := by
  induction t generalizing b with
  | nil => exact le_rfl
  | cons p t ih =>
      simp only [maxEntree]
      by_cases h : b.2 < p.2
      · rw [if_pos h]
        exact le_trans (le_of_lt h) (ih p)
      · rw [if_neg h]
        exact ih b

lemma maxEntree_premier (b : String × ℕ) (t : List (String × ℕ)) :
    ∃ pre suf, b :: t = pre ++ maxEntree b t :: suf ∧
      (∀ p ∈ pre, p.2 < (maxEntree b t).2) ∧
      (∀ p ∈ suf, p.2 ≤ (maxEntree b t).2) := by
  induction t generalizing b with
  | nil => exact ⟨[], [], rfl, by simp, by simp⟩
  | cons p t ih =>
      simp only [maxEntree]
      by_cases h : b.2 < p.2
      · rw [if_pos h]
        obtain ⟨pre, suf, heq, hpre, hsuf⟩ := ih p
        refine ⟨b :: pre, suf, ?_, ?_, hsuf⟩
        · rw [List.cons_append, ← heq]
        · intro q hq
          rcases List.mem_cons.mp hq with rfl | hq2
          · exact lt_of_lt_of_le h (maxEntree_ge p t)
          · exact hpre q hq2
      · rw [if_neg h]
        obtain ⟨pre, suf, heq, hpre, hsuf⟩ := ih b
        cases pre with
        | nil =>
            rw [List.nil_append] at heq
            injection heq with hb htail
            refine ⟨[], p :: t, ?_, by simp, ?_⟩
            · rw [List.nil_append, ← hb]
            · intro q hq
              rcases List.mem_cons.mp hq with rfl | hq2
              · rw [← hb]
                exact Nat.le_of_not_lt h
              · rw [htail] at hq2
                exact hsuf q hq2
        | cons b2 pre2 =>
            rw [List.cons_append] at heq
            injection heq with hb2 htail
            have hbmax : b.2 < (maxEntree b t).2 := by
              have hmem := hpre b2 (List.mem_cons_self b2 pre2)
              rwa [← hb2] at hmem
            refine ⟨b :: p :: pre2, suf, ?_, ?_, hsuf⟩
            · rw [List.cons_append, List.cons_append, ← htail]
            · intro q hq
              rcases List.mem_cons.mp hq with rfl | hq2
              · exact hbmax
              rcases List.mem_cons.mp hq2 with rfl | hq3
              · exact lt_of_le_of_lt (Nat.le_of_not_lt h) hbmax
              · exact hpre q (List.mem_cons_of_mem _ hq3)

lemma incrementeComptage_ne_nil (l : List (String × ℕ)) (k : String) :
    incrementeComptage l k ≠ [] := by
  cases l with
  | nil => simp [incrementeComptage]
  | cons p t =>
      simp only [incrementeComptage]
      split <;> simp

lemma foldl_comptage_ne_nil (vs : List (String × String))
    (acc : List (String × ℕ)) (h : acc ≠ []) :
    vs.foldl (fun a v => incrementeComptage a v.2) acc ≠ [] := by
  induction vs generalizing acc with
  | nil => exact h
  | cons v vs ih => exact ih _ (incrementeComptage_ne_nil acc v.2)

lemma comptage_ne_nil (votes : List (String × String)) (h : votes ≠ []) :
    comptage votes ≠ [] := by
  cases votes with
  | nil => exact absurd rfl h
  | cons v vs =>
      unfold comptage
      rw [List.foldl_cons]
      exact foldl_comptage_ne_nil vs _ (incrementeComptage_ne_nil [] v.2)

/-! ### Concrete inputs used by counterexamples and witnesses -/

/-- Peer data of the fallback example of the spec: X and Y steady at 10,
Z around 30 (peers of `rpi1`, keyed `rpi2`, `rpi3`, `rpi4`). -/
def exAutresXYZ : List (String × List ℚ) :=
  [("rpi2", [10, 10, 10]), ("rpi3", [10, 10, 10]), ("rpi4", [30, 31, 29])]

/-- A round of votes in which `rpi4` and `rpi2` tie at two votes each,
with `rpi4` accused first. -/
def exVotesEgalite : List (String × String) :=
  [("rpi1", "rpi4"), ("rpi2", "rpi4"), ("rpi3", "rpi2"), ("rpi4", "rpi2")]

/-- The tally example of the spec: votes a→b, b→b, c→c, d→b. -/
def exVotesMajorite : List (String × String) :=
  [("a", "b"), ("b", "b"), ("c", "c"), ("d", "b")]

/-! ### Claims -/

/-- C1, counterexample: with Ollama unreachable and draw 0, the honest
fallback on the X/Y/Z data accuses `rpi2` (the first collected peer),
while the statistical rule of the claim accuses `rpi4`; the fallback is
not the deterministic statistical rule. -/
theorem claim1_counterexample :
    (analyserEspion "rpi1" [10, 10, 10] exAutresXYZ false false .aucune 0).suspect
      = "rpi2" ∧
    regleStatistiqueSpec [10, 10, 10] exAutresXYZ = some "rpi4" ∧
    ("rpi2" : String) ≠ "rpi4" := by
  refine ⟨by decide, ?_, by decide⟩
  norm_num [regleStatistiqueSpec, exAutresXYZ]
  simp +decide

/-- C1, amended: whenever the AnalysisService call is unavailable,
unanswered or invalid, the honest vote is `_vote_aleatoire`: a uniformly
drawn member of the collected-peer id list with fixed confidence 0.25,
and the fixed record (suspect `rpi1`, confidence 0.25) when that list is
empty — not a statistical rule. -/
theorem claim1_amended :
    (∀ (monId : String) (mes : List ℚ) (autres : List (String × List ℚ))
        (dispo : Bool) (rep : ReponseLLM) (d : ℕ),
        echecAnalyse dispo rep = true →
        analyserEspion monId mes autres false dispo rep d =
          voteAleatoire monId (autres.map Prod.fst) d) ∧
    (∀ (monId : String) (ids : List String) (d : ℕ), ids ≠ [] →
        (voteAleatoire monId ids d).suspect = ids.getD (d % ids.length) "" ∧
        (voteAleatoire monId ids d).suspect ∈ ids ∧
        (voteAleatoire monId ids d).confiance = 1/4) ∧
    (∀ (monId : String) (d : ℕ), voteAleatoire monId [] d = ⟨"rpi1", 1/4⟩) := by
  refine ⟨?_, ?_, ?_⟩
  · intro monId mes autres dispo rep d h
    cases dispo with
    | false => simp [analyserEspion]
    | true =>
        cases rep with
        | aucune => simp [analyserEspion]
        | invalide => simp [analyserEspion]
        | valide s c =>
            have hs : validerSuspect s = false := by
              simpa [echecAnalyse] using h
            simp [analyserEspion, hs]
  · intro monId ids d h
    unfold voteAleatoire
    rw [if_neg h]
    exact ⟨rfl, choixAleatoire_mem ids d h, rfl⟩
  · intro monId d
    rfl

/-- C1, witness: the amended statement applied to the X/Y/Z data with
Ollama unavailable and draw 0. -/
theorem claim1_witness :
    analyserEspion "rpi1" [10, 10, 10] exAutresXYZ false false .aucune 0 =
      voteAleatoire "rpi1" (exAutresXYZ.map Prod.fst) 0 ∧
    (voteAleatoire "rpi1" (exAutresXYZ.map Prod.fst) 0).suspect
      ∈ exAutresXYZ.map Prod.fst :=
  ⟨claim1_amended.1 "rpi1" [10, 10, 10] exAutresXYZ false .aucune 0 (by decide),
   (claim1_amended.2.1 "rpi1" (exAutresXYZ.map Prod.fst) 0 (by decide)).2.1⟩

/-- C2, counterexample: with votes rpi1→rpi4, rpi2→rpi4, rpi3→rpi2,
rpi4→rpi2, the ids `rpi4` and `rpi2` tie at the maximum count 2, yet the
resolution picks `rpi4`, not the lexicographically smaller `rpi2`: the
tie-break is first-in-insertion-order, not smallest id. -/
theorem claim2_counterexample :
    suspectDesigne (comptage exVotesEgalite) = "rpi4" ∧
    ("rpi2", 2) ∈ comptage exVotesEgalite ∧
    (∀ p ∈ comptage exVotesEgalite, p.2 ≤ 2) ∧
    ("rpi2" : String).data < ("rpi4" : String).data := by
  decide

/-- C2, amended: among accused ids sharing the maximum vote count, the
resolution picks the one whose tally entry appears first in insertion
order, i.e. the tied id that was first accused: the chosen id splits the
tally into earlier entries with strictly smaller counts and later entries
with counts at most its own. -/
theorem claim2_amended (votes : List (String × String)) (h : votes ≠ []) :
    ∃ n pre suf,
      comptage votes = pre ++ (suspectDesigne (comptage votes), n) :: suf ∧
      (∀ p ∈ pre, p.2 < n) ∧ (∀ p ∈ suf, p.2 ≤ n) := by
  obtain ⟨p0, t, hct⟩ := List.exists_cons_of_ne_nil (comptage_ne_nil votes h)
  obtain ⟨pre, suf, heq, hpre, hsuf⟩ := maxEntree_premier p0 t
  refine ⟨(maxEntree p0 t).2, pre, suf, ?_, hpre, hsuf⟩
  have hs : suspectDesigne (comptage votes) = (maxEntree p0 t).1 := by
    rw [hct]
    rfl
  rw [hs, hct]
  exact heq

/-- C2, witness: the amended statement applied to the tied round. -/
theorem claim2_witness :
    ∃ n pre suf,
      comptage exVotesEgalite =
        pre ++ (suspectDesigne (comptage exVotesEgalite), n) :: suf ∧
      (∀ p ∈ pre, p.2 < n) ∧ (∀ p ∈ suf, p.2 ≤ n) :=
  claim2_amended exVotesEgalite (by decide)

/-- C3: a completed round is won by the sensors exactly when the majority
suspect is the actual spy; on the spec example (a→b, b→b, c→c, d→b) the
majority suspect is b with 3 votes, the sensors win when the spy is b and
the spy wins when the spy is c. -/
theorem claim3_thm :
    (∀ (votes : List (String × String)) (espionId : String), votes ≠ [] →
        (determinerGagnant votes espionId = Issue.victoireCapteurs ↔
          suspectDesigne (comptage votes) = espionId)) ∧
    suspectDesigne (comptage exVotesMajorite) = "b" ∧
    ("b", 3) ∈ comptage exVotesMajorite ∧
    determinerGagnant exVotesMajorite "b" = Issue.victoireCapteurs ∧
    determinerGagnant exVotesMajorite "c" = Issue.victoireEspion := by
  refine ⟨?_, by decide, by decide, by decide, by decide⟩
  intro votes e h
  by_cases hcond : suspectDesigne (comptage votes) = e <;>
    simp [determinerGagnant, hcond]

/-- C3, witness: the equivalence applied to the spec example with spy b. -/
theorem claim3_witness :
    determinerGagnant exVotesMajorite "b" = Issue.victoireCapteurs ↔
      suspectDesigne (comptage exVotesMajorite) = "b" :=
  claim3_thm.1 exVotesMajorite "b" (by decide)

/-- A server state with one accepted vote, in the middle of a round. -/
def exServeurUnVote : Serveur :=
  { espionId := some "rpi2", votes := [("rpi1", "rpi2")], nbVotesRecus := 1,
    capteursConnectes := capteursIds, partieEnCours := true }

/-- A server state in which three of the four expected votes are in. -/
def exServeurTrois : Serveur :=
  { espionId := some "rpi1",
    votes := [("rpi1", "rpi2"), ("rpi2", "rpi1"), ("rpi3", "rpi1")],
    nbVotesRecus := 3, capteursConnectes := capteursIds, partieEnCours := true }

/-- C4: the arbiter accepts at most one vote per voter and rejects, with
the state left untouched, a duplicate vote, a vote from an id outside the
participant set, an accusation naming an id outside the participant set
or carried by an unusable payload, and a duplicate presence
announcement. -/
theorem claim4_thm :
    (∀ (s : Serveur) (v : String) (p : Option String),
        v ∈ s.votes.map Prod.fst → traiterVote s v p = (s, none)) ∧
    (∀ (s : Serveur) (v : String) (p : Option String),
        v ∉ capteursIds → traiterVote s v p = (s, none)) ∧
    (∀ (s : Serveur) (v suspect : String),
        suspect ∉ capteursIds → traiterVote s v (some suspect) = (s, none)) ∧
    (∀ (s : Serveur) (v : String), traiterVote s v none = (s, none)) ∧
    (∀ (s : Serveur) (c : String) (t : ℕ),
        c ∈ s.capteursConnectes → traiterPresence s c t = s) := by
  refine ⟨?_, ?_, ?_, ?_, ?_⟩
  · intro s v p h
    by_cases hv : v ∈ capteursIds <;> simp [traiterVote, hv, h]
  · intro s v p h
    simp [traiterVote, h]
  · intro s v suspect h
    by_cases hv : v ∈ capteursIds
    · by_cases hdup : v ∈ s.votes.map Prod.fst <;>
        simp [traiterVote, hv, hdup, h]
    · simp [traiterVote, hv]
  · intro s v
    by_cases hv : v ∈ capteursIds
    · by_cases hdup : v ∈ s.votes.map Prod.fst <;>
        simp [traiterVote, hv, hdup]
    · simp [traiterVote, hv]
  · intro s c t h
    by_cases hc : c ∈ capteursIds <;> simp [traiterPresence, hc, h]

/-- C4, witness: on a state holding a vote by rpi1, a second rpi1 vote, a
vote by an unknown id, an accusation of an unknown id and a duplicate
presence announcement are all ignored. -/
theorem claim4_witness :
    traiterVote exServeurUnVote "rpi1" (some "rpi3") = (exServeurUnVote, none) ∧
    traiterVote exServeurUnVote "autre" (some "rpi3") = (exServeurUnVote, none) ∧
    traiterVote exServeurUnVote "rpi2" (some "intrus") = (exServeurUnVote, none) ∧
    traiterPresence exServeurUnVote "rpi1" 0 = exServeurUnVote :=
  ⟨claim4_thm.1 exServeurUnVote "rpi1" (some "rpi3") (by decide),
   claim4_thm.2.1 exServeurUnVote "autre" (some "rpi3") (by decide),
   claim4_thm.2.2.1 exServeurUnVote "rpi2" "intrus" (by decide),
   claim4_thm.2.2.2.2 exServeurUnVote "rpi1" 0 (by decide)⟩

/-- C9: `reinitialiser_partie` clears every round-scoped field (votes,
vote counter, spy assignment, registered set, in-progress flag), and any
vote whose processing produces a round outcome leaves the arbiter in that
cleared `WaitingForAgents` state, so a new round starts from an empty
tally and an empty registry. -/
theorem claim9_thm :
    (∀ s : Serveur, reinitialiserPartie s = etatInitial) ∧
    (∀ (s : Serveur) (v : String) (p : Option String) (s2 : Serveur) (r : Issue),
        traiterVote s v p = (s2, some r) → s2 = etatInitial) := by
  refine ⟨fun s => rfl, ?_⟩
  intro s v p s2 r h
  simp only [traiterVote] at h
  split at h
  · simp at h
  · split at h
    · simp at h
    · split at h
      · simp at h
      · split at h
        · simp at h
        · split at h
          · simp only [Prod.mk.injEq] at h
            exact h.1.symm
          · simp at h

/-- C9, witness: the fourth accepted vote resolves the round and resets
the arbiter to the cleared state. -/
theorem claim9_witness :
    (traiterVote exServeurTrois "rpi4" (some "rpi1")).1 = etatInitial := by
  have h : traiterVote exServeurTrois "rpi4" (some "rpi1") =
      ((traiterVote exServeurTrois "rpi4" (some "rpi1")).1,
        some Issue.victoireCapteurs) := by decide
  exact claim9_thm.2 exServeurTrois "rpi4" (some "rpi1") _ Issue.victoireCapteurs h

/-- A collection state in which peer rpi2 already has K = 5 samples. -/
def exRecuesPleines : List (String × List ℚ) := [("rpi2", [1, 2, 3, 4, 5])]

/-- C5, counterexample: with peer rpi2 already at K = 5 collected samples,
a further received sample is appended anyway: the sequence becomes
[1, 2, 3, 4, 5, 6], so samples beyond K are not ignored. -/
theorem claim5_counterexample :
    chercher "rpi2" exRecuesPleines = some [1, 2, 3, 4, 5] ∧
    ((chercher "rpi2" exRecuesPleines).getD []).length = maxPublications ∧
    traiterTemperatureRecue exRecuesPleines "rpi2" (some 6) ≠ exRecuesPleines ∧
    chercher "rpi2" (traiterTemperatureRecue exRecuesPleines "rpi2" (some 6)) =
      some [1, 2, 3, 4, 5, 6] := by
  decide

/-- C5, amended: every successfully parsed received sample is appended to
the sending peer sequence unconditionally — no length bound is enforced,
so a peer sequence can grow beyond K; an unparseable payload leaves the
state unchanged. -/
theorem claim5_amended :
    (∀ (recues : List (String × List ℚ)) (peer : String) (t : ℚ),
        chercher peer (traiterTemperatureRecue recues peer (some t)) =
          some ((chercher peer recues).getD [] ++ [t])) ∧
    (∀ (recues : List (String × List ℚ)) (peer : String),
        traiterTemperatureRecue recues peer none = recues) := by
  refine ⟨?_, fun _ _ => rfl⟩
  intro recues peer t
  show chercher peer (appendRecue recues peer t) = _
  induction recues with
  | nil => simp [appendRecue, chercher]
  | cons p rest ih =>
      obtain ⟨k, ts⟩ := p
      by_cases hk : k = peer
      · simp [appendRecue, chercher, hk]
      · simp [appendRecue, chercher, hk, ih]

/-- C6, counterexample: in the state where no peer samples were collected,
the spy strategy returns the fixed suspect `rpi1` — its own id when the
spy is rpi1 — with confidence 0.6, while the nonempty case uses 0.65, so
the confidence is not a single fixed constant either. -/
theorem claim6_counterexample :
    (voteEspion "rpi1" [] 0).suspect = "rpi1" ∧
    (voteEspion "rpi1" [] 0).confiance = 3/5 ∧
    (voteEspion "rpi1" ["rpi2"] 0).confiance = 13/20 ∧
    (3/5 : ℚ) ≠ 13/20 := by
  refine ⟨by decide, ?_, ?_, by norm_num⟩
  · norm_num [voteEspion]
  · norm_num [voteEspion, choixAleatoire]

/-- C6, amended: when at least one peer has delivered samples, the spy
accuses a uniformly drawn member of the collected-peer id list with fixed
confidence 0.65 (never itself, since its own id is not among the
collected peers); when no peer samples were collected it returns the
fixed record (suspect `rpi1`, confidence 0.6), which can name itself. -/
theorem claim6_amended :
    (∀ (monId : String) (autres : List String) (d : ℕ), autres ≠ [] →
        (voteEspion monId autres d).suspect = autres.getD (d % autres.length) "" ∧
        (voteEspion monId autres d).suspect ∈ autres ∧
        (voteEspion monId autres d).confiance = 13/20 ∧
        (monId ∉ autres → (voteEspion monId autres d).suspect ≠ monId)) ∧
    (∀ (monId : String) (d : ℕ),
        voteEspion monId [] d = ⟨"rpi1", 3/5⟩) := by
  refine ⟨?_, fun _ _ => rfl⟩
  intro monId autres d h
  unfold voteEspion
  rw [if_neg h]
  refine ⟨rfl, choixAleatoire_mem autres d h, rfl, ?_⟩
  intro hnot heq
  exact hnot (heq ▸ choixAleatoire_mem autres d h)

/-- C6, witness: the amended statement applied to spy rpi1 with three
collected peers and draw 5. -/
theorem claim6_witness :
    (voteEspion "rpi1" ["rpi2", "rpi3", "rpi4"] 5).suspect
      ∈ ["rpi2", "rpi3", "rpi4"] ∧
    (voteEspion "rpi1" ["rpi2", "rpi3", "rpi4"] 5).confiance = 13/20 ∧
    (voteEspion "rpi1" ["rpi2", "rpi3", "rpi4"] 5).suspect ≠ "rpi1" := by
  have h := claim6_amended.1 "rpi1" ["rpi2", "rpi3", "rpi4"] 5 (by decide)
  exact ⟨h.2.1, h.2.2.1, h.2.2.2 (by decide)⟩

lemma publierTemperatures_getD (role : String) (meteo : ℕ → Option ℚ)
    (tirages : ℕ → ℕ) (i : ℕ) (h : i < maxPublications) :
    (publierTemperatures role meteo tirages).getD i 0 =
      obtenirTemperature role (meteo i) (tirages i) := by
  unfold publierTemperatures
  have hi : i < ((List.range maxPublications).map fun j =>
      obtenirTemperature role (meteo j) (tirages j)).length := by
    simpa using h
  rw [List.getD_eq_getElem _ _ hi, List.getElem_map, List.getElem_range]

/-- C7: each publication loop records exactly K = 5 samples, one
`obtenir_temperature` outcome per iteration; a spy sample is
offset + scale · draw rounded to one decimal and clamped to [-50, 60]
(hence always within that range); an honest sample is the fetched reading
rounded to one decimal, or the fixed default 10.0 when the fetch fails. -/
theorem claim7_thm :
    ∀ (role : String) (meteo : ℕ → Option ℚ) (tirages : ℕ → ℕ),
      (publierTemperatures role meteo tirages).length = maxPublications ∧
      (∀ i, i < maxPublications →
          (publierTemperatures role meteo tirages).getD i 0 =
            obtenirTemperature role (meteo i) (tirages i)) ∧
      (role = "espion" → ∀ i, i < maxPublications →
          (publierTemperatures role meteo tirages).getD i 0 =
            max (-50) (min 60
              (pythonRound1 (offsetEspion + scaleEspion * (tirages i : ℚ)))) ∧
          -50 ≤ (publierTemperatures role meteo tirages).getD i 0 ∧
          (publierTemperatures role meteo tirages).getD i 0 ≤ 60) ∧
      (role ≠ "espion" → ∀ i, i < maxPublications →
          (meteo i = none →
            (publierTemperatures role meteo tirages).getD i 0 = 10) ∧
          (∀ t, meteo i = some t →
            (publierTemperatures role meteo tirages).getD i 0 = pythonRound1 t)) := by
  intro role meteo tirages
  refine ⟨by simp [publierTemperatures], publierTemperatures_getD role meteo tirages,
    ?_, ?_⟩
  · intro hrole i hi
    have hv : (publierTemperatures role meteo tirages).getD i 0 =
        genererTemperatureAberrante (tirages i) := by
      rw [publierTemperatures_getD role meteo tirages i hi]
      simp [obtenirTemperature, hrole]
    refine ⟨by rw [hv]; rfl, ?_, ?_⟩
    · rw [hv]
      exact le_max_left _ _
    · rw [hv]
      exact max_le (by norm_num) (min_le_left _ _)
  · intro hrole i hi
    constructor
    · intro hm
      rw [publierTemperatures_getD role meteo tirages i hi]
      simp [obtenirTemperature, hrole, hm]
    · intro t hm
      rw [publierTemperatures_getD role meteo tirages i hi]
      simp [obtenirTemperature, hrole, hm]

/-- C7, witness: a spy round with every Poisson draw equal to 20 yields
five samples, each inside the clamp range. -/
theorem claim7_witness :
    (publierTemperatures "espion" (fun _ => none) fun _ => 20).length =
      maxPublications ∧
    -50 ≤ (publierTemperatures "espion" (fun _ => none) fun _ => 20).getD 0 0 ∧
    (publierTemperatures "espion" (fun _ => none) fun _ => 20).getD 0 0 ≤ 60 := by
  have h := claim7_thm "espion" (fun _ => none) fun _ => 20
  have h2 := h.2.2.1 rfl 0 (by norm_num [maxPublications])
  exact ⟨h.1, h2.2.1, h2.2.2⟩

/-- A collection state in which all three peers reached K = 5 samples. -/
def exRecuesCompletes : List (String × List ℚ) :=
  [("rpi2", [1, 2, 3, 4, 5]), ("rpi3", [1, 2, 3, 4, 5]), ("rpi4", [1, 2, 3, 4, 5])]

/-- C8, counterexample: the pause between publication and decision is the
constant 3 s whatever the collection state, while the wait claimed by the
spec is 30 s when no peer delivered anything (T_max elapses) and 0 s when
every peer is already complete (proceed as soon as the condition holds):
the code neither polls the condition nor honours T_max. -/
theorem claim8_counterexample :
    tempsAttenteApresPublication [] = 3 ∧
    attenteSpec ["rpi2", "rpi3", "rpi4"] [] = 30 ∧
    tempsAttenteApresPublication exRecuesCompletes = 3 ∧
    attenteSpec ["rpi2", "rpi3", "rpi4"] exRecuesCompletes = 0 ∧
    (3 : ℚ) ≠ 30 ∧ (3 : ℚ) ≠ 0 := by
  refine ⟨rfl, by decide, rfl, by decide, by norm_num, by norm_num⟩

/-- C8, amended: after its K publications the agent sleeps a fixed 3
seconds, independently of how many peer samples have been collected, and
then proceeds to the decision step with whatever partial data it holds:
the wait is the same for every collection state. -/
theorem claim8_amended :
    ∀ r1 r2 : List (String × List ℚ),
      tempsAttenteApresPublication r1 = 3 ∧
      tempsAttenteApresPublication r1 = tempsAttenteApresPublication r2 :=
  fun _ _ => ⟨rfl, rfl⟩

/-- C10: confidence normalization always lands in [0, 1]: a parsed string
value above 1 is divided by 100 then clamped, a parsed string value at
most 1 is clamped directly, an unparseable string maps to 0.5, and a
numeric input is clamped. -/
theorem claim10_thm :
    (∀ c : EntreeConfiance,
        0 ≤ normaliserConfiance c ∧ normaliserConfiance c ≤ 1) ∧
    (∀ q : ℚ, 1 < q →
        normaliserConfiance (.chaine (some q)) = max 0 (min 1 (q / 100))) ∧
    (∀ q : ℚ, ¬1 < q →
        normaliserConfiance (.chaine (some q)) = max 0 (min 1 q)) ∧
    normaliserConfiance (.chaine none) = 1/2 := by
  refine ⟨?_, ?_, ?_, rfl⟩
  · intro c
    match c with
    | .nombre q =>
        exact ⟨le_max_left 0 _, max_le (by norm_num) (min_le_left 1 q)⟩
    | .chaine none =>
        norm_num [normaliserConfiance]
    | .chaine (some q) =>
        simp only [normaliserConfiance]
        exact ⟨le_max_left 0 _, max_le (by norm_num) (min_le_left _ _)⟩
  · intro q h
    simp [normaliserConfiance, h]
  · intro q h
    simp [normaliserConfiance, h]

/-- C10, witness: the string value 85 is read as a percentage and clamped,
landing in [0, 1]. -/
theorem claim10_witness :
    normaliserConfiance (.chaine (some 85)) = max 0 (min 1 (85 / 100)) ∧
    0 ≤ normaliserConfiance (.chaine (some 85)) ∧
    normaliserConfiance (.chaine (some 85)) ≤ 1 :=
  ⟨claim10_thm.2.1 85 (by norm_num),
   (claim10_thm.1 (.chaine (some 85))).1,
   (claim10_thm.1 (.chaine (some 85))).2⟩
